import Mathlib

/-!
Shallow embedding of the supermarket checkout simulation
(`supermarket-checkout-simulation.py`).

The program is an interactive terminal loop over two in-memory containers:
a catalog `stock` (product name -> price, quantity) and a `cart`
(list of (product, quantity, unit price) lines).  We model the interactive
input stream as a list of events: a text line typed by the user, or a
keyboard interrupt (Ctrl+C).  Exhaustion of the event list models
end-of-input (Python raises EOFError there).  Every input-consuming
function returns the outcome, the remaining events, and the list of
printed lines, mirroring the Python control flow branch by branch.

Prices are modelled as rationals.  All monetary amounts reachable in the
program are exact multiples of a cent, for which Python's binary floating
point arithmetic and two-decimal formatting agree with exact rational
arithmetic, so `Rat` is a faithful model of the reachable arithmetic.
-/

/-- One event on the interactive input stream: a typed line of text, or a
keyboard interrupt (Ctrl+C) raised while the program waits for input. -/
inductive Ev where
  | txt (s : String)
  | intr
deriving DecidableEq, Repr

/-- Outcome of running a piece of the program: normal return, or a
propagating KeyboardInterrupt, EOFError, or other exception (KeyError). -/
inductive Res (α : Type) where
  | ok (a : α)
  | intr
  | eof
  | exn
deriving DecidableEq, Repr

/-- Models Python `int(s)` on an ASCII decimal literal: optional sign
followed by one or more digits.  (Python additionally accepts underscore
group separators and non-ASCII digits; no input relevant to the claims
uses those.) -/
def parseInt (s : String) : Option Int :=
  match s.data with
  | [] => none
  | '-' :: ds =>
      if ds ≠ [] ∧ ds.all (fun c => c.isDigit) then
        some (-(ds.foldl (fun n c => 10 * n + (c.toNat - 48)) 0 : Nat))
      else none
  | '+' :: ds =>
      if ds ≠ [] ∧ ds.all (fun c => c.isDigit) then
        some ((ds.foldl (fun n c => 10 * n + (c.toNat - 48)) 0 : Nat))
      else none
  | ds =>
      if ds.all (fun c => c.isDigit) then
        some ((ds.foldl (fun n c => 10 * n + (c.toNat - 48)) 0 : Nat))
      else none

/-- Models Python `str.capitalize()`: first character upper-cased, the
rest lower-cased (ASCII; catalog keys are ASCII). -/
def pyCapitalize (s : String) : String :=
  match s.data with
  | [] => ""
  | c :: cs => ⟨c.toUpper :: cs.map Char.toLower⟩

/-- Models Python `str.strip()`: remove leading and trailing whitespace.
(Implemented structurally over the character list so that it evaluates
inside the kernel; Lean's whitespace predicate covers the ASCII
whitespace relevant here.) -/
def pyStrip (s : String) : String :=
  ⟨((s.data.dropWhile Char.isWhitespace).reverse.dropWhile Char.isWhitespace).reverse⟩

/-- Models Python `str.lower()` (ASCII; all catalog keys are ASCII). -/
def pyLower (s : String) : String :=
  ⟨s.data.map Char.toLower⟩

/-- The insertion step of a stable sort: place `a` before the first
element it may precede. -/
def insertLe {α : Type} (le : α → α → Bool) (a : α) : List α → List α
  | [] => [a]
  | b :: l => if le a b then a :: b :: l else b :: insertLe le a l

/-- Stable insertion sort.  For the total preorders used in this file it
produces exactly the result of Python's stable `sorted` (and of
`heapq.nlargest`, which is `sorted(..., reverse=True)[:n]`), and unlike
`List.mergeSort` it evaluates inside the kernel. -/
def sortLe {α : Type} (le : α → α → Bool) : List α → List α
  | [] => []
  | a :: l => insertLe le a (sortLe le l)

/-- The currency symbol constant `CURRENCY` of the program. -/
def CURRENCY : String := "€"

/-- Two-decimal rendering of a rational number of currency units.  All
amounts the program ever formats are whole numbers of cents, on which
this agrees exactly with Python's float `.2f` formatting. -/
def two_dec (v : ℚ) : String :=
  let c : Int := round (v * 100)
  let n := c.natAbs
  (if c < 0 then "-" else "") ++ toString (n / 100) ++ "." ++
    (if n % 100 < 10 then "0" else "") ++ toString (n % 100)

/-- Models `fmt_money`: format a value as currency with two decimals. -/
def fmt_money (v : ℚ) : String :=
  CURRENCY ++ " " ++ two_dec v

namespace Difflib

/-!
Faithful model of `difflib.get_close_matches` (CPython), the library
routine the program uses for fuzzy product-name suggestions, specialised
to character sequences.  `b2j` junk handling is modelled with an empty
junk set: the program passes no `isjunk`, and `autojunk` only activates
when the second sequence has at least 200 elements, which never happens
for the short product names and typed words of this program.

Ratio comparisons are carried out in exact rational arithmetic.  The
ratios involved have tiny denominators (at most the sum of two word
lengths), so Python's float comparisons against them agree exactly with
the rational ones.
-/

/-- Whether positions `i` of `a` and `j` of `b` hold the same character. -/
def chEq (a b : List Char) (i j : Nat) : Bool :=
  match a.get? i, b.get? j with
  | some x, some y => x == y
  | _, _ => false

/-- The `(besti, bestj, bestsize)` triple of `find_longest_match`. -/
structure FLM where
  besti : Nat
  bestj : Nat
  bestsize : Nat
deriving DecidableEq, Repr

/-- The dynamic-programming core of `SequenceMatcher.find_longest_match`:
scan `i` over `[alo, ahi)` carrying `j2len` (length of the common run
ending at the previous row) and the current best block, scanning `j`
over the window `[blo, bhi)` in increasing order and recording a new
best only on a strict improvement, exactly as the CPython loop does. -/
def flmDP (a b : List Char) (alo ahi blo bhi : Nat) : FLM :=
  let step : ((Nat → Nat) × FLM) → Nat → ((Nat → Nat) × FLM) := fun st i =>
    let j2len := st.1
    let newj2len : Nat → Nat := fun j =>
      if blo ≤ j ∧ j < bhi ∧ chEq a b i j then
        (if j = 0 then 0 else j2len (j - 1)) + 1
      else 0
    let best := ( List.range' blo (bhi - blo)).foldl
      (fun best j =>
        let k := newj2len j
        if best.bestsize < k then ⟨i + 1 - k, j + 1 - k, k⟩ else best) st.2
    (newj2len, best)
  (( List.range' alo (ahi - alo)).foldl step ((fun _ => 0), ⟨alo, blo, 0⟩)).2

/-- The backward extension loop of `find_longest_match` (the junk-set is
empty, so the non-junk condition is always true).  The fuel bounds the
number of steps; `besti` many always suffice. -/
def extBack (a b : List Char) (alo blo : Nat) : Nat → FLM → FLM
  | 0, m => m
  | fuel + 1, m =>
      if alo < m.besti ∧ blo < m.bestj ∧ chEq a b (m.besti - 1) (m.bestj - 1) then
        extBack a b alo blo fuel ⟨m.besti - 1, m.bestj - 1, m.bestsize + 1⟩
      else m

/-- The forward extension loop of `find_longest_match` (empty junk-set). -/
def extFwd (a b : List Char) (ahi bhi : Nat) : Nat → FLM → FLM
  | 0, m => m
  | fuel + 1, m =>
      if m.besti + m.bestsize < ahi ∧ m.bestj + m.bestsize < bhi ∧
          chEq a b (m.besti + m.bestsize) (m.bestj + m.bestsize) then
        extFwd a b ahi bhi fuel ⟨m.besti, m.bestj, m.bestsize + 1⟩
      else m

/-- `SequenceMatcher.find_longest_match` on the windows
`a[alo:ahi]`, `b[blo:bhi]`, with an empty junk set (the two junk
extension loops of CPython never fire then and are omitted). -/
def find_longest_match (a b : List Char) (alo ahi blo bhi : Nat) : FLM :=
  extFwd a b ahi bhi (ahi + bhi) (extBack a b alo blo (ahi + bhi) (flmDP a b alo ahi blo bhi))

/-- Total size of all matching blocks produced by
`SequenceMatcher.get_matching_blocks` on the given windows: recursively
split around the longest match.  (CPython's queue-based traversal visits
the same regions; merging adjacent blocks does not change the sum.)
The fuel bounds the recursion depth; `ahi + bhi + 1` always suffices
because each split strictly shrinks the window pair. -/
def matchSum (a b : List Char) : Nat → Nat → Nat → Nat → Nat → Nat
  | 0, _, _, _, _ => 0
  | fuel + 1, alo, ahi, blo, bhi =>
      let m := find_longest_match a b alo ahi blo bhi
      if m.bestsize = 0 then 0
      else
        matchSum a b fuel alo m.besti blo m.bestj + m.bestsize +
          matchSum a b fuel (m.besti + m.bestsize) ahi (m.bestj + m.bestsize) bhi

/-- An exact non-negative fraction, representing the real value
`num / den` of a similarity score (`den` is always positive here).
Python computes these scores as floats; for the tiny denominators
arising from short strings the float comparisons coincide exactly with
the exact ones, so comparing fractions by integer cross-multiplication
is a faithful model. -/
structure Frac where
  num : Nat
  den : Nat
deriving DecidableEq, Repr

/-- Exact `≤` on score fractions (cross-multiplication). -/
def Frac.le (x y : Frac) : Bool :=
  decide (x.num * y.den ≤ y.num * x.den)

/-- Exact `<` on score fractions. -/
def Frac.lt (x y : Frac) : Bool :=
  decide (x.num * y.den < y.num * x.den)

/-- Exact value equality on score fractions. -/
def Frac.beq (x y : Frac) : Bool :=
  decide (x.num * y.den = y.num * x.den)

/-- `SequenceMatcher.ratio`: `2 * M / T` where `M` is the total size of
the matching blocks and `T` the total length (1 when both are empty). -/
def ratio (a b : List Char) : Frac :=
  let m := matchSum a b (a.length + b.length + 1) 0 a.length 0 b.length
  if a.length + b.length ≠ 0 then ⟨2 * m, a.length + b.length⟩ else ⟨1, 1⟩

/-- `SequenceMatcher.quick_ratio`: an upper bound on `ratio` counting,
for each character, the smaller of its multiplicities in the two
sequences. -/
def quick_ratio (a b : List Char) : Frac :=
  let m := (a.dedup).foldl (fun acc c => acc + min (a.count c) (b.count c)) 0
  if a.length + b.length ≠ 0 then ⟨2 * m, a.length + b.length⟩ else ⟨1, 1⟩

/-- `SequenceMatcher.real_quick_ratio`: the coarser length-only bound. -/
def real_quick_ratio (a b : List Char) : Frac :=
  if a.length + b.length ≠ 0 then ⟨2 * min a.length b.length, a.length + b.length⟩ else ⟨1, 1⟩

/-- Python string comparison `a <= b` on code points (lexicographic). -/
def charsLe : List Char → List Char → Bool
  | [], _ => true
  | _ :: _, [] => false
  | c :: cs, d :: ds =>
      if c.toNat < d.toNat then true
      else if d.toNat < c.toNat then false
      else charsLe cs ds

/-- Python `a <= b` on strings. -/
def strLe (a b : String) : Bool :=
  charsLe a.data b.data

/-- `difflib.get_close_matches word possibilities n cutoff`: keep the
possibilities whose similarity to `word` reaches `cutoff` (the two
quick bounds are tested first exactly as in CPython), order them by
decreasing `(score, string)` pair (CPython's `heapq.nlargest` on the
score and string pairs, which is the stable descending sort), and
return the first `n`. -/
def get_close_matches (word : String) (possibilities : List String) (n : Nat) (cutoff : Frac) :
    List String :=
  let b := word.data
  let scored := possibilities.filterMap (fun x =>
    let a := x.data
    if Frac.le cutoff (real_quick_ratio a b) ∧ Frac.le cutoff (quick_ratio a b) ∧
        Frac.le cutoff (ratio a b) then
      some (ratio a b, x)
    else none)
  let best := (sortLe
    (fun p q => Frac.lt q.1 p.1 || (Frac.beq q.1 p.1 && strLe q.2 p.2)) scored).take n
  best.map Prod.snd

end Difflib

/-- The per-product record stored in the catalog: a price and a quantity
on hand.  (Python keeps these in a two-field dict.) -/
structure ProdData where
  price : ℚ
  quantity : Int
deriving DecidableEq, Repr

/-- The catalog: an insertion-ordered association of product name to
data, modelling the Python dict `stock`. -/
abbrev Stock := List (String × ProdData)

/-- One cart line: `(product, quantity, unit_price)`. -/
abbrev CartLine := String × Int × ℚ

/-- The shopping cart, in insertion order. -/
abbrev Cart := List CartLine

/-- Dict lookup `stock[k]` (also `k in stock` via `Option.isSome`). -/
def Stock.find? (st : Stock) (k : String) : Option ProdData :=
  match st with
  | [] => none
  | e :: t => if e.1 == k then some e.2 else Stock.find? t k

/-- `stock.keys()`, in insertion order. -/
def Stock.keys (st : Stock) : List String :=
  st.map Prod.fst

/-- The assignment `stock[k]["quantity"] = q`: rewrite the quantity of
the entry with key `k`, leaving keys, order and prices untouched. -/
def Stock.setQty (st : Stock) (k : String) (q : Int) : Stock :=
  st.map (fun e => if e.1 == k then (e.1, ⟨e.2.price, q⟩) else e)

/-- The seeded initial stock of the program. -/
def initStock : Stock :=
  [("rice", ⟨5.50, 10⟩), ("beans", ⟨7.20, 8⟩), ("pasta", ⟨3.80, 15⟩), ("oil", ⟨6.00, 5⟩)]

/-- Result of `read_positive_int`: outcome, remaining input events,
printed lines. -/
structure RpiRes where
  res : Res Int
  rest : List Ev
  out : List String
deriving DecidableEq, Repr

/-- The invalid-integer retry message of `read_positive_int`. -/
def msgInvalidInt : String := "Invalid input: please enter an integer."

/-- The below-minimum retry message of `read_positive_int`. -/
def msgMin (minimum : Int) : String :=
  "Attention: please enter an integer >= " ++ toString minimum ++ "."

/-- The above-maximum retry message of `read_positive_int`. -/
def msgMax (mx : Int) : String :=
  "Attention: the maximum allowed is " ++ toString mx ++ "."

/-- Printed by `read_positive_int` before re-raising an interrupt. -/
def msgCancelOp : String := "\nOperation cancelled by user."

/-- Models `read_positive_int`: repeatedly read a line, parse it as an
integer and check it against `minimum` and the optional `maximum`,
printing a mode-specific message and retrying on each failure;
a keyboard interrupt is printed about and re-raised; end of input
propagates as EOFError. -/
def read_positive_int (minimum : Int) (maximum : Option Int) : List Ev → RpiRes
  | [] => ⟨.eof, [], []⟩
  | .intr :: rest => ⟨.intr, rest, [msgCancelOp]⟩
  | .txt s :: rest =>
      match parseInt (pyStrip s) with
      | none =>
          let r := read_positive_int minimum maximum rest
          ⟨r.res, r.rest, msgInvalidInt :: r.out⟩
      | some value =>
          if value < minimum then
            let r := read_positive_int minimum maximum rest
            ⟨r.res, r.rest, msgMin minimum :: r.out⟩
          else
            match maximum with
            | some mx =>
                if mx < value then
                  let r := read_positive_int minimum maximum rest
                  ⟨r.res, r.rest, msgMax mx :: r.out⟩
                else ⟨.ok value, rest, []⟩
            | none => ⟨.ok value, rest, []⟩

theorem rpi_rest_suffix (minimum : Int) (maximum : Option Int) :
    ∀ evs : List Ev, ∃ pre, evs = pre ++ (read_positive_int minimum maximum evs).rest := by
  intro evs
  induction evs with
  | nil => exact ⟨[], rfl⟩
  | cons e rest ih =>
    obtain ⟨pre, hpre⟩ := ih
    cases e with
    | intr => exact ⟨[.intr], rfl⟩
    | txt s =>
      simp only [read_positive_int]
      cases hp : parseInt (pyStrip s) with
      | none => exact ⟨.txt s :: pre, by simp [hpre.symm]⟩
      | some value =>
        by_cases hv : value < minimum
        · simp only [hv, if_true]
          exact ⟨.txt s :: pre, by simp [hpre.symm]⟩
        · cases hm : maximum with
          | none => exact ⟨[.txt s], by simp [hv]⟩
          | some mx =>
            rw [hm] at hpre
            by_cases hx : mx < value
            · simp only [hv, if_false, hx, if_true]
              exact ⟨.txt s :: pre, by simp [hpre.symm]⟩
            · exact ⟨[.txt s], by simp [hv, hx]⟩

theorem rpi_rest_length_le (minimum : Int) (maximum : Option Int) (evs : List Ev) :
    (read_positive_int minimum maximum evs).rest.length ≤ evs.length := by
  obtain ⟨pre, hpre⟩ := rpi_rest_suffix minimum maximum evs
  conv_rhs => rw [hpre]
  simp

theorem rpi_ok_bounds (minimum : Int) (maximum : Option Int) :
    ∀ evs : List Ev, ∀ v : Int, (read_positive_int minimum maximum evs).res = .ok v →
      minimum ≤ v ∧ ∀ M, maximum = some M → v ≤ M := by
  intro evs
  induction evs with
  | nil => intro v h; simp [read_positive_int] at h
  | cons e rest ih =>
    intro v h
    cases e with
    | intr => simp [read_positive_int] at h
    | txt s =>
      simp only [read_positive_int] at h
      cases hp : parseInt (pyStrip s) with
      | none => rw [hp] at h; exact ih v h
      | some value =>
        rw [hp] at h
        by_cases hv : value < minimum
        · simp only [hv, if_true] at h; exact ih v h
        · simp only [hv, if_false] at h
          cases hm : maximum with
          | none =>
            rw [hm] at h
            simp only [Res.ok.injEq] at h
            subst h
            exact ⟨not_lt.mp hv, by intro M hM; cases hM⟩
          | some mx =>
            rw [hm] at h
            by_cases hx : mx < value
            · simp only [hx, if_true] at h
              rw [← hm] at h
              have := ih v h
              exact ⟨this.1, fun M hM => this.2 M (by rw [hm]; exact hM)⟩
            · simp only [hx, if_false, Res.ok.injEq] at h
              subst h
              refine ⟨not_lt.mp hv, ?_⟩
              intro M hM
              cases hM
              exact not_lt.mp hx

/-- Result of `choose_product_name`: an optional resolved key (or a
propagating EOFError), the remaining events, the printed lines. -/
structure ChooseRes where
  res : Res (Option String)
  rest : List Ev
  out : List String
deriving DecidableEq, Repr

/-- Printed when a keyboard interrupt cancels the current action. -/
def msgCancelAct : String := "\nAction cancelled by user."

/-- Printed when the typed name has no close catalog match. -/
def msgNoSuggest : String :=
  "Product not found and no suggestions. Use \x27Show stock\x27 to see available products."

/-- Header of the suggestion prompt. -/
def msgDidYouMean : String := "\nProduct not found. Did you mean:"

/-- Last line of the suggestion prompt. -/
def msgNoneOfThese : String := "0) None of these (type again)"

/-- The lines of the suggestion prompt for a list of close matches. -/
def suggestLines (ms : List String) : List String :=
  msgDidYouMean ::
    (ms.enum.map (fun p => toString (p.1 + 1) ++ ") " ++ pyCapitalize p.2) ++ [msgNoneOfThese])

/-- Models `choose_product_name`: read a name (stripped, lower-cased);
blank or "0" cancels; an exact catalog key is returned at once; otherwise
up to 3 close matches (similarity cutoff 0.6) are offered and a validated
numeric choice selects one (0 retries); with no close match the prompt
retries.  A keyboard interrupt is caught here and yields no product. -/
def choose_product_name (st : Stock) : List Ev → ChooseRes
  | [] => ⟨.eof, [], []⟩
  | .intr :: rest => ⟨.ok none, rest, [msgCancelAct]⟩
  | .txt s :: rest =>
      let product := (pyLower (pyStrip s))
      if product = "0" ∨ product = "" then ⟨.ok none, rest, []⟩
      else if (Stock.find? st product).isSome then ⟨.ok (some product), rest, []⟩
      else
        let ms := Difflib.get_close_matches product (Stock.keys st) 3 ⟨3, 5⟩
        if ms.isEmpty then
          let r := choose_product_name st rest
          ⟨r.res, r.rest, msgNoSuggest :: r.out⟩
        else
          let q := read_positive_int 0 (some (ms.length : Int)) rest
          match q.res with
          | .ok choice =>
              if choice = 0 then
                let r := choose_product_name st q.rest
                ⟨r.res, r.rest, suggestLines ms ++ q.out ++ r.out⟩
              else ⟨.ok (ms.get? (choice - 1).toNat), q.rest, suggestLines ms ++ q.out⟩
          | .intr => ⟨.ok none, q.rest, suggestLines ms ++ q.out ++ [msgCancelAct]⟩
          | .eof => ⟨.eof, q.rest, suggestLines ms ++ q.out⟩
          | .exn => ⟨.exn, q.rest, suggestLines ms ++ q.out⟩
termination_by evs => evs.length
decreasing_by
  · simp only [List.length_cons]
    omega
  · simp only [List.length_cons]
    have := rpi_rest_length_le 0 (some (Difflib.get_close_matches ((pyLower (pyStrip s)))
      (Stock.keys st) 3 ⟨3, 5⟩).length) rest
    omega

/-- Models `show_stock`: header, then one line per product in sorted key
order (or a no-products line). -/
def show_stock (st : Stock) : List String :=
  "\n=== AVAILABLE STOCK ===" ::
    (if st.isEmpty then ["No products available."]
     else (sortLe Difflib.strLe (Stock.keys st)).map (fun product =>
        match Stock.find? st product with
        | some d =>
            pyCapitalize product ++ " - Price: " ++ fmt_money d.price ++
              " | Quantity: " ++ toString d.quantity
        | none => ""))

/-- The running total accumulated by the loop of `show_total`. -/
def cart_total (cart : Cart) : ℚ :=
  cart.foldl (fun t l => t + (l.2.1 : ℚ) * l.2.2) 0

/-- The line `show_total` prints for one cart line. -/
def cartLineStr (l : CartLine) : String :=
  pyCapitalize l.1 ++ " x" ++ toString l.2.1 ++ " - " ++ fmt_money ((l.2.1 : ℚ) * l.2.2)

/-- Models `show_total`: header, then either the empty-cart message, or
one line per cart line followed by the total line. -/
def show_total (cart : Cart) : List String :=
  "\n=== SHOPPING CART ===" ::
    (if cart.isEmpty then ["Your cart is empty."]
     else cart.map cartLineStr ++ ["\nTotal purchase value: " ++ fmt_money (cart_total cart)])

/-- Result of `add_product`: the new catalog and cart (the Python
function mutates the globals), the outcome, remaining events, printed
lines. -/
structure AddRes where
  stock : Stock
  cart : Cart
  res : Res Unit
  rest : List Ev
  out : List String
deriving DecidableEq, Repr

/-- Printed when product resolution yields nothing. -/
def msgNoProduct : String := "No product selected."

/-- Models `add_product`: resolve a product, check availability, read a
quantity (minimum 1, no maximum), reject if it exceeds availability,
otherwise append a cart line with the snapshotted price and then write
the decremented quantity back to the catalog.  A keyboard interrupt
anywhere inside is caught, leaving both containers untouched.  (The
`.exn` arm after resolution models Python's KeyError; it is unreachable
because the resolver only returns catalog keys.) -/
def add_product (st : Stock) (cart : Cart) (evs : List Ev) : AddRes :=
  match choose_product_name st evs with
  | ⟨.ok none, rest, out⟩ => ⟨st, cart, .ok (), rest, out ++ [msgNoProduct]⟩
  | ⟨.ok (some product), rest, out⟩ =>
      match Stock.find? st product with
      | none => ⟨st, cart, .exn, rest, out⟩
      | some pd =>
          let available := pd.quantity
          if available ≤ 0 then
            ⟨st, cart, .ok (), rest,
              out ++ ["No stock available for \x27" ++ product ++ "\x27."]⟩
          else
            match read_positive_int 1 none rest with
            | ⟨.ok quantity, rest2, out2⟩ =>
                if available < quantity then
                  ⟨st, cart, .ok (), rest2,
                    out ++ out2 ++ ["Not enough stock. Only " ++ toString available ++ " left."]⟩
                else
                  let cart2 := cart ++ [(product, quantity, pd.price)]
                  let st2 := Stock.setQty st product (available - quantity)
                  ⟨st2, cart2, .ok (), rest2,
                    out ++ out2 ++ [toString quantity ++ "x " ++ product ++ " added to cart!"]⟩
            | ⟨.intr, rest2, out2⟩ => ⟨st, cart, .ok (), rest2, out ++ out2 ++ [msgCancelAct]⟩
            | ⟨.eof, rest2, out2⟩ => ⟨st, cart, .eof, rest2, out ++ out2⟩
            | ⟨.exn, rest2, out2⟩ => ⟨st, cart, .exn, rest2, out ++ out2⟩
  | ⟨.intr, rest, out⟩ => ⟨st, cart, .ok (), rest, out ++ [msgCancelAct]⟩
  | ⟨.eof, rest, out⟩ => ⟨st, cart, .eof, rest, out⟩
  | ⟨.exn, rest, out⟩ => ⟨st, cart, .exn, rest, out⟩

theorem choose_nil (st : Stock) : choose_product_name st [] = ⟨.eof, [], []⟩ := by
  simp [choose_product_name]

theorem choose_intr (st : Stock) (rest : List Ev) :
    choose_product_name st (.intr :: rest) = ⟨.ok none, rest, [msgCancelAct]⟩ := by
  simp [choose_product_name]

theorem choose_cancel (st : Stock) (s : String) (rest : List Ev)
    (h : (pyLower (pyStrip s)) = "0" ∨ (pyLower (pyStrip s)) = "") :
    choose_product_name st (.txt s :: rest) = ⟨.ok none, rest, []⟩ := by
  simp [choose_product_name, h]

theorem choose_exact (st : Stock) (s : String) (rest : List Ev)
    (h : ¬((pyLower (pyStrip s)) = "0" ∨ (pyLower (pyStrip s)) = ""))
    (hsome : (Stock.find? st (pyLower (pyStrip s))).isSome) :
    choose_product_name st (.txt s :: rest) = ⟨.ok (some (pyLower (pyStrip s))), rest, []⟩ := by
  simp [choose_product_name, h, hsome]

theorem choose_nosuggest (st : Stock) (s : String) (rest : List Ev)
    (h : ¬((pyLower (pyStrip s)) = "0" ∨ (pyLower (pyStrip s)) = ""))
    (hnone : ¬(Stock.find? st (pyLower (pyStrip s))).isSome)
    (hms : Difflib.get_close_matches (pyLower (pyStrip s)) (Stock.keys st) 3 ⟨3, 5⟩ = []) :
    choose_product_name st (.txt s :: rest) =
      ⟨(choose_product_name st rest).res, (choose_product_name st rest).rest,
        msgNoSuggest :: (choose_product_name st rest).out⟩ := by
  simp [choose_product_name, h, hnone, hms]

theorem choose_pick (st : Stock) (s : String) (rest : List Ev) (c : Int)
    (h : ¬((pyLower (pyStrip s)) = "0" ∨ (pyLower (pyStrip s)) = ""))
    (hnone : ¬(Stock.find? st (pyLower (pyStrip s))).isSome)
    (hms : Difflib.get_close_matches (pyLower (pyStrip s)) (Stock.keys st) 3 ⟨3, 5⟩ ≠ [])
    (hok : (read_positive_int 0
        (some ((Difflib.get_close_matches (pyLower (pyStrip s)) (Stock.keys st) 3 ⟨3, 5⟩).length : Int))
        rest).res = .ok c)
    (hc : c ≠ 0) :
    choose_product_name st (.txt s :: rest) =
      ⟨.ok ((Difflib.get_close_matches (pyLower (pyStrip s)) (Stock.keys st) 3 ⟨3, 5⟩).get?
          (c - 1).toNat),
        (read_positive_int 0
          (some ((Difflib.get_close_matches (pyLower (pyStrip s)) (Stock.keys st) 3 ⟨3, 5⟩).length : Int))
          rest).rest,
        suggestLines (Difflib.get_close_matches (pyLower (pyStrip s)) (Stock.keys st) 3 ⟨3, 5⟩) ++
          (read_positive_int 0
            (some ((Difflib.get_close_matches (pyLower (pyStrip s)) (Stock.keys st) 3 ⟨3, 5⟩).length : Int))
            rest).out⟩ := by
  simp [choose_product_name, h, hnone, List.isEmpty_iff, hms, hok, hc]

theorem choose_retry (st : Stock) (s : String) (rest : List Ev)
    (h : ¬((pyLower (pyStrip s)) = "0" ∨ (pyLower (pyStrip s)) = ""))
    (hnone : ¬(Stock.find? st (pyLower (pyStrip s))).isSome)
    (hms : Difflib.get_close_matches (pyLower (pyStrip s)) (Stock.keys st) 3 ⟨3, 5⟩ ≠ [])
    (hok : (read_positive_int 0
        (some ((Difflib.get_close_matches (pyLower (pyStrip s)) (Stock.keys st) 3 ⟨3, 5⟩).length : Int))
        rest).res = .ok 0) :
    choose_product_name st (.txt s :: rest) =
      (let q := read_positive_int 0
        (some ((Difflib.get_close_matches (pyLower (pyStrip s)) (Stock.keys st) 3 ⟨3, 5⟩).length : Int))
        rest
       let r := choose_product_name st q.rest
       ⟨r.res, r.rest,
         suggestLines (Difflib.get_close_matches (pyLower (pyStrip s)) (Stock.keys st) 3 ⟨3, 5⟩) ++
           q.out ++ r.out⟩) := by
  simp [choose_product_name, h, hnone, List.isEmpty_iff, hms, hok]

theorem choose_prompt_intr (st : Stock) (s : String) (rest : List Ev)
    (h : ¬((pyLower (pyStrip s)) = "0" ∨ (pyLower (pyStrip s)) = ""))
    (hnone : ¬(Stock.find? st (pyLower (pyStrip s))).isSome)
    (hms : Difflib.get_close_matches (pyLower (pyStrip s)) (Stock.keys st) 3 ⟨3, 5⟩ ≠ [])
    (hint : (read_positive_int 0
        (some ((Difflib.get_close_matches (pyLower (pyStrip s)) (Stock.keys st) 3 ⟨3, 5⟩).length : Int))
        rest).res = .intr) :
    choose_product_name st (.txt s :: rest) =
      (let q := read_positive_int 0
        (some ((Difflib.get_close_matches (pyLower (pyStrip s)) (Stock.keys st) 3 ⟨3, 5⟩).length : Int))
        rest
       ⟨.ok none, q.rest,
         suggestLines (Difflib.get_close_matches (pyLower (pyStrip s)) (Stock.keys st) 3 ⟨3, 5⟩) ++
           q.out ++ [msgCancelAct]⟩) := by
  simp [choose_product_name, h, hnone, List.isEmpty_iff, hms, hint]

theorem choose_prompt_eof (st : Stock) (s : String) (rest : List Ev)
    (h : ¬((pyLower (pyStrip s)) = "0" ∨ (pyLower (pyStrip s)) = ""))
    (hnone : ¬(Stock.find? st (pyLower (pyStrip s))).isSome)
    (hms : Difflib.get_close_matches (pyLower (pyStrip s)) (Stock.keys st) 3 ⟨3, 5⟩ ≠ [])
    (heof : (read_positive_int 0
        (some ((Difflib.get_close_matches (pyLower (pyStrip s)) (Stock.keys st) 3 ⟨3, 5⟩).length : Int))
        rest).res = .eof) :
    choose_product_name st (.txt s :: rest) =
      (let q := read_positive_int 0
        (some ((Difflib.get_close_matches (pyLower (pyStrip s)) (Stock.keys st) 3 ⟨3, 5⟩).length : Int))
        rest
       ⟨.eof, q.rest,
         suggestLines (Difflib.get_close_matches (pyLower (pyStrip s)) (Stock.keys st) 3 ⟨3, 5⟩) ++
           q.out⟩) := by
  simp [choose_product_name, h, hnone, List.isEmpty_iff, hms, heof]

theorem choose_prompt_exn (st : Stock) (s : String) (rest : List Ev)
    (h : ¬((pyLower (pyStrip s)) = "0" ∨ (pyLower (pyStrip s)) = ""))
    (hnone : ¬(Stock.find? st (pyLower (pyStrip s))).isSome)
    (hms : Difflib.get_close_matches (pyLower (pyStrip s)) (Stock.keys st) 3 ⟨3, 5⟩ ≠ [])
    (hexn : (read_positive_int 0
        (some ((Difflib.get_close_matches (pyLower (pyStrip s)) (Stock.keys st) 3 ⟨3, 5⟩).length : Int))
        rest).res = .exn) :
    choose_product_name st (.txt s :: rest) =
      (let q := read_positive_int 0
        (some ((Difflib.get_close_matches (pyLower (pyStrip s)) (Stock.keys st) 3 ⟨3, 5⟩).length : Int))
        rest
       ⟨.exn, q.rest,
         suggestLines (Difflib.get_close_matches (pyLower (pyStrip s)) (Stock.keys st) 3 ⟨3, 5⟩) ++
           q.out⟩) := by
  simp [choose_product_name, h, hnone, List.isEmpty_iff, hms, hexn]

theorem choose_rest_suffix (st : Stock) :
    ∀ evs : List Ev, ∃ pre, evs = pre ++ (choose_product_name st evs).rest := by
  suffices h : ∀ (n : Nat) (evs : List Ev), evs.length ≤ n →
      ∃ pre, evs = pre ++ (choose_product_name st evs).rest by
    intro evs; exact h evs.length evs le_rfl
  intro n
  induction n with
  | zero =>
    intro evs hlen
    have hnil : evs = [] := List.length_eq_zero.mp (Nat.le_zero.mp hlen)
    subst hnil
    exact ⟨[], by simp [choose_nil]⟩
  | succ n ih =>
    intro evs hlen
    cases evs with
    | nil => exact ⟨[], by simp [choose_nil]⟩
    | cons e rest =>
      have hr : rest.length ≤ n := by
        simp only [List.length_cons] at hlen
        omega
      cases e with
      | intr => exact ⟨[.intr], by simp [choose_intr]⟩
      | txt s =>
        by_cases h0 : (pyLower (pyStrip s)) = "0" ∨ (pyLower (pyStrip s)) = ""
        · exact ⟨[.txt s], by simp [choose_cancel st s rest h0]⟩
        · by_cases hsome : (Stock.find? st (pyLower (pyStrip s))).isSome
          · exact ⟨[.txt s], by simp [choose_exact st s rest h0 hsome]⟩
          · by_cases hms : Difflib.get_close_matches (pyLower (pyStrip s)) (Stock.keys st) 3 ⟨3, 5⟩ = []
            · obtain ⟨p, hp⟩ := ih rest hr
              refine ⟨.txt s :: p, ?_⟩
              rw [choose_nosuggest st s rest h0 hsome hms]
              simpa using hp
            · obtain ⟨p1, hp1⟩ := rpi_rest_suffix 0
                (some ((Difflib.get_close_matches (pyLower (pyStrip s)) (Stock.keys st) 3 ⟨3, 5⟩).length : Int))
                rest
              cases hres : (read_positive_int 0
                  (some ((Difflib.get_close_matches (pyLower (pyStrip s)) (Stock.keys st) 3 ⟨3, 5⟩).length : Int))
                  rest).res with
              | ok c =>
                by_cases hc : c = 0
                · subst hc
                  rw [choose_retry st s rest h0 hsome hms hres]
                  have hqle := rpi_rest_length_le 0
                    (some ((Difflib.get_close_matches (pyLower (pyStrip s)) (Stock.keys st) 3 ⟨3, 5⟩).length : Int))
                    rest
                  obtain ⟨p2, hp2⟩ := ih _ (le_trans hqle hr)
                  refine ⟨.txt s :: (p1 ++ p2), ?_⟩
                  simp only [List.cons_append, List.append_assoc]
                  rw [← hp2, ← hp1]
                · rw [choose_pick st s rest c h0 hsome hms hres hc]
                  exact ⟨.txt s :: p1, by simpa using hp1⟩
              | intr =>
                rw [choose_prompt_intr st s rest h0 hsome hms hres]
                exact ⟨.txt s :: p1, by simpa using hp1⟩
              | eof =>
                rw [choose_prompt_eof st s rest h0 hsome hms hres]
                exact ⟨.txt s :: p1, by simpa using hp1⟩
              | exn =>
                rw [choose_prompt_exn st s rest h0 hsome hms hres]
                exact ⟨.txt s :: p1, by simpa using hp1⟩

theorem choose_rest_length_le (st : Stock) (evs : List Ev) :
    (choose_product_name st evs).rest.length ≤ evs.length := by
  obtain ⟨pre, hpre⟩ := choose_rest_suffix st evs
  conv_rhs => rw [hpre]
  simp

theorem add_rest_suffix (st : Stock) (cart : Cart) (evs : List Ev) :
    ∃ pre, evs = pre ++ (add_product st cart evs).rest := by
  obtain ⟨p1, hp1⟩ := choose_rest_suffix st evs
  rcases hch : choose_product_name st evs with ⟨res, rest, out⟩
  rw [hch] at hp1
  cases res with
  | ok op =>
    cases op with
    | none => exact ⟨p1, by simp only [add_product, hch]; exact hp1⟩
    | some product =>
      cases hf : Stock.find? st product with
      | none => exact ⟨p1, by simp only [add_product, hch, hf]; exact hp1⟩
      | some pd =>
        by_cases hav : pd.quantity ≤ 0
        · exact ⟨p1, by simp only [add_product, hch, hf, if_pos hav]; exact hp1⟩
        · obtain ⟨p2, hp2⟩ := rpi_rest_suffix 1 none rest
          rcases hrpi : read_positive_int 1 none rest with ⟨res2, rest2, out2⟩
          rw [hrpi] at hp2
          have hev : evs = (p1 ++ p2) ++ rest2 := by
            rw [hp1, hp2, List.append_assoc]
          cases res2 with
          | ok quantity =>
            by_cases hlt : pd.quantity < quantity
            · exact ⟨p1 ++ p2,
                by simp only [add_product, hch, hf, if_neg hav, hrpi, if_pos hlt]; exact hev⟩
            · exact ⟨p1 ++ p2,
                by simp only [add_product, hch, hf, if_neg hav, hrpi, if_neg hlt]; exact hev⟩
          | intr => exact ⟨p1 ++ p2,
              by simp only [add_product, hch, hf, if_neg hav, hrpi]; exact hev⟩
          | eof => exact ⟨p1 ++ p2,
              by simp only [add_product, hch, hf, if_neg hav, hrpi]; exact hev⟩
          | exn => exact ⟨p1 ++ p2,
              by simp only [add_product, hch, hf, if_neg hav, hrpi]; exact hev⟩
  | intr => exact ⟨p1, by simp only [add_product, hch]; exact hp1⟩
  | eof => exact ⟨p1, by simp only [add_product, hch]; exact hp1⟩
  | exn => exact ⟨p1, by simp only [add_product, hch]; exact hp1⟩

theorem add_rest_length_le (st : Stock) (cart : Cart) (evs : List Ev) :
    (add_product st cart evs).rest.length ≤ evs.length := by
  obtain ⟨pre, hpre⟩ := add_rest_suffix st cart evs
  conv_rhs => rw [hpre]
  simp

/-- How the modelled menu loop ended: `exited` via option 0 (the `break`),
or `starved` when the finite event list ran out (the real process would
then block on—or spin over—further input, never having executed `break`). -/
inductive MenuRes where
  | exited
  | starved
deriving DecidableEq, Repr

/-- Result of the menu loop: final catalog and cart, unconsumed events,
how the loop ended, printed lines. -/
structure MenuOut where
  stock : Stock
  cart : Cart
  rest : List Ev
  res : MenuRes
  out : List String
deriving DecidableEq, Repr

/-- The six lines of the menu banner printed at each iteration. -/
def menuLines : List String :=
  ["\n=== MENU ===", "1) Show stock", "2) Add product to cart",
   "3) Checkout (show total)", "4) Show final stock", "0) Exit"]

/-- Hint printed when an interrupt arrives at the menu prompt. -/
def msgHint : String := "\nInterruption detected. To exit, choose option 0."

/-- Printed on an unrecognized menu option. -/
def msgInvalidOpt : String := "Invalid option! Try again."

/-- Printed on exit via option 0. -/
def msgExit : String := "Exiting system..."

/-- What the menu loop's exception handlers print when a dispatched
handler raises: nothing on normal return; the interrupt hint for a
KeyboardInterrupt; the catch-all report (here for the EOFError raised by
exhausted input, or the unreachable KeyError) followed by the
continuation notice — in every case the loop then continues. -/
def menuHandle : Res Unit → List String
  | .ok _ => []
  | .intr => [msgHint]
  | .eof => ["Unexpected error: EOFError: EOF when reading a line",
      "The system will continue running."]
  | .exn => ["Unexpected error: KeyError", "The system will continue running."]

/-- Models the `menu` loop: print the banner, read an option, dispatch;
options 1 and 4 show the stock, 2 runs `add_product`, 3 shows the cart
total, 0 breaks out of the loop; anything else reports an invalid
option; an interrupt at the prompt prints a hint; a handler exception is
caught and reported; in all cases but option 0 the loop continues. -/
def menu (st : Stock) (cart : Cart) : List Ev → MenuOut
  | [] => ⟨st, cart, [], .starved, []⟩
  | .intr :: rest =>
      let r := menu st cart rest
      ⟨r.stock, r.cart, r.rest, r.res, menuLines ++ [msgHint] ++ r.out⟩
  | .txt s :: rest =>
      if pyStrip s = "1" then
        let r := menu st cart rest
        ⟨r.stock, r.cart, r.rest, r.res, menuLines ++ show_stock st ++ r.out⟩
      else if pyStrip s = "2" then
        let a := add_product st cart rest
        let r := menu a.stock a.cart a.rest
        ⟨r.stock, r.cart, r.rest, r.res, menuLines ++ a.out ++ menuHandle a.res ++ r.out⟩
      else if pyStrip s = "3" then
        let r := menu st cart rest
        ⟨r.stock, r.cart, r.rest, r.res, menuLines ++ show_total cart ++ r.out⟩
      else if pyStrip s = "4" then
        let r := menu st cart rest
        ⟨r.stock, r.cart, r.rest, r.res, menuLines ++ show_stock st ++ r.out⟩
      else if pyStrip s = "0" then ⟨st, cart, rest, .exited, menuLines ++ [msgExit]⟩
      else
        let r := menu st cart rest
        ⟨r.stock, r.cart, r.rest, r.res, menuLines ++ [msgInvalidOpt] ++ r.out⟩
termination_by evs => evs.length
decreasing_by
  · simp only [List.length_cons]; omega
  · simp only [List.length_cons]; omega
  · simp only [List.length_cons]
    have := add_rest_length_le st cart rest
    omega
  · simp only [List.length_cons]; omega
  · simp only [List.length_cons]; omega
  · simp only [List.length_cons]; omega

theorem menu_nil (st : Stock) (cart : Cart) : menu st cart [] = ⟨st, cart, [], .starved, []⟩ := by
  simp [menu]

theorem menu_intr (st : Stock) (cart : Cart) (rest : List Ev) :
    menu st cart (.intr :: rest) =
      (let r := menu st cart rest
       ⟨r.stock, r.cart, r.rest, r.res, menuLines ++ [msgHint] ++ r.out⟩) := by
  simp [menu]

theorem menu_opt1 (st : Stock) (cart : Cart) (s : String) (rest : List Ev) (h : pyStrip s = "1") :
    menu st cart (.txt s :: rest) =
      (let r := menu st cart rest
       ⟨r.stock, r.cart, r.rest, r.res, menuLines ++ show_stock st ++ r.out⟩) := by
  simp [menu, h]

theorem menu_opt2 (st : Stock) (cart : Cart) (s : String) (rest : List Ev) (h : pyStrip s = "2") :
    menu st cart (.txt s :: rest) =
      (let a := add_product st cart rest
       let r := menu a.stock a.cart a.rest
       ⟨r.stock, r.cart, r.rest, r.res, menuLines ++ a.out ++ menuHandle a.res ++ r.out⟩) := by
  simp [menu, h]

theorem menu_opt3 (st : Stock) (cart : Cart) (s : String) (rest : List Ev) (h : pyStrip s = "3") :
    menu st cart (.txt s :: rest) =
      (let r := menu st cart rest
       ⟨r.stock, r.cart, r.rest, r.res, menuLines ++ show_total cart ++ r.out⟩) := by
  simp [menu, h]

theorem menu_opt4 (st : Stock) (cart : Cart) (s : String) (rest : List Ev) (h : pyStrip s = "4") :
    menu st cart (.txt s :: rest) =
      (let r := menu st cart rest
       ⟨r.stock, r.cart, r.rest, r.res, menuLines ++ show_stock st ++ r.out⟩) := by
  simp [menu, h]

theorem menu_opt0 (st : Stock) (cart : Cart) (s : String) (rest : List Ev) (h : pyStrip s = "0") :
    menu st cart (.txt s :: rest) = ⟨st, cart, rest, .exited, menuLines ++ [msgExit]⟩ := by
  simp [menu, h]

theorem menu_invalid (st : Stock) (cart : Cart) (s : String) (rest : List Ev)
    (h1 : pyStrip s ≠ "1") (h2 : pyStrip s ≠ "2") (h3 : pyStrip s ≠ "3") (h4 : pyStrip s ≠ "4")
    (h0 : pyStrip s ≠ "0") :
    menu st cart (.txt s :: rest) =
      (let r := menu st cart rest
       ⟨r.stock, r.cart, r.rest, r.res, menuLines ++ [msgInvalidOpt] ++ r.out⟩) := by
  simp [menu, h1, h2, h3, h4, h0]

theorem msg_num_getElem (p suf : String) (m : Int) (k : Nat) (hk : k < p.data.length) :
    ((p ++ toString m) ++ suf).data[k]? = p.data[k]? := by
  have h1 : k < (p.data ++ (toString m).data).length := by
    rw [List.length_append]; omega
  rw [String.data_append, String.data_append, List.getElem?_append_left h1,
    List.getElem?_append_left hk]

theorem msgMin_getElem (m : Int) (k : Nat)
    (hk : k < "Attention: please enter an integer >= ".data.length) :
    (msgMin m).data[k]? = "Attention: please enter an integer >= ".data[k]? :=
  msg_num_getElem _ _ m k hk

theorem msgMax_getElem (m : Int) (k : Nat)
    (hk : k < "Attention: the maximum allowed is ".data.length) :
    (msgMax m).data[k]? = "Attention: the maximum allowed is ".data[k]? :=
  msg_num_getElem _ _ m k hk

theorem msgInvalidInt_ne_msgMin (m : Int) : msgInvalidInt ≠ msgMin m := by
  intro he
  have h1 : (msgMin m).data[0]? = some 'A' := by
    rw [msgMin_getElem m 0 (by decide)]; decide
  rw [← he] at h1
  revert h1; decide

theorem msgInvalidInt_ne_msgMax (m : Int) : msgInvalidInt ≠ msgMax m := by
  intro he
  have h1 : (msgMax m).data[0]? = some 'A' := by
    rw [msgMax_getElem m 0 (by decide)]; decide
  rw [← he] at h1
  revert h1; decide

theorem msgMin_ne_msgMax (m₁ m₂ : Int) : msgMin m₁ ≠ msgMax m₂ := by
  intro he
  have h1 : (msgMin m₁).data[11]? = some 'p' := by
    rw [msgMin_getElem m₁ 11 (by decide)]; decide
  have h2 : (msgMax m₂).data[11]? = some 't' := by
    rw [msgMax_getElem m₂ 11 (by decide)]; decide
  rw [he, h2] at h1
  cases h1

/-- The keys-and-prices view of the catalog: everything except the
mutable quantities. -/
def pricesView (st : Stock) : List (String × ℚ) :=
  st.map (fun e => (e.1, e.2.price))

theorem pricesView_setQty (st : Stock) (k : String) (q : Int) :
    pricesView (Stock.setQty st k q) = pricesView st := by
  induction st with
  | nil => rfl
  | cons a t ih =>
    simp only [Stock.setQty, pricesView, List.map_cons] at ih ⊢
    by_cases h : a.1 == k
    · simp only [h, if_true]
      exact congrArg _ ih
    · simp only [h, if_false]
      exact congrArg _ ih

theorem find?_setQty_self (st : Stock) (k : String) (d : ProdData) (q : Int)
    (h : Stock.find? st k = some d) :
    Stock.find? (Stock.setQty st k q) k = some ⟨d.price, q⟩ := by
  induction st with
  | nil => simp [Stock.find?] at h
  | cons a t ih =>
    by_cases ha : a.1 == k
    · simp only [Stock.find?, ha, if_true] at h
      cases h
      simp [Stock.setQty, Stock.find?, ha]
    · simp only [Stock.find?, ha, if_false] at h
      have hrec := ih h
      simp only [Stock.setQty, List.map_cons, ha, if_false]
      simpa [Stock.find?, ha, Stock.setQty] using hrec

theorem setQty_mem_quantity (st : Stock) (k : String) (q : Int) (e : String × ProdData)
    (he : e ∈ Stock.setQty st k q) :
    (∃ e₀ ∈ st, e.2.quantity = e₀.2.quantity) ∨ e.2.quantity = q := by
  obtain ⟨e₀, he₀, hf⟩ := List.mem_map.mp he
  by_cases h : e₀.1 == k
  · right
    rw [if_pos h] at hf
    rw [← hf]
  · left
    rw [if_neg h] at hf
    exact ⟨e₀, he₀, by rw [← hf]⟩

theorem cart_total_eq_sum (cart : Cart) :
    cart_total cart = (cart.map (fun x => (x.2.1 : ℚ) * x.2.2)).sum := by
  suffices h : ∀ (l : Cart) (a : ℚ),
      l.foldl (fun t x => t + (x.2.1 : ℚ) * x.2.2) a = a + (l.map (fun x => (x.2.1 : ℚ) * x.2.2)).sum by
    simpa using h cart 0
  intro l
  induction l with
  | nil => intro a; simp
  | cons x t ih =>
    intro a
    simp only [List.foldl_cons, List.map_cons, List.sum_cons, ih, add_assoc]

theorem gcm_length_le (w : String) (ps : List String) (n : Nat) (c : Difflib.Frac) :
    (Difflib.get_close_matches w ps n c).length ≤ n := by
  unfold Difflib.get_close_matches
  simp only [List.length_map, List.length_take]
  omega

theorem rpi_immediate (minimum : Int) (maximum : Option Int) (s : String) (rest : List Ev)
    (q : Int) (hq : parseInt (pyStrip s) = some q) (h1 : ¬q < minimum)
    (hmx : ∀ M, maximum = some M → ¬M < q) :
    read_positive_int minimum maximum (.txt s :: rest) = ⟨.ok q, rest, []⟩ := by
  cases maximum with
  | none => simp [read_positive_int, hq, h1]
  | some M => simp [read_positive_int, hq, h1, hmx M rfl]

theorem add_product_success (st : Stock) (cart : Cart) (s₁ s₂ : String) (rest : List Ev)
    (pr : ℚ) (a q : Int)
    (h0 : ¬((pyLower (pyStrip s₁)) = "0" ∨ (pyLower (pyStrip s₁)) = ""))
    (hkey : Stock.find? st (pyLower (pyStrip s₁)) = some ⟨pr, a⟩)
    (ha : 0 < a) (hq : parseInt (pyStrip s₂) = some q) (h1 : 1 ≤ q) (hqa : q ≤ a) :
    add_product st cart (.txt s₁ :: .txt s₂ :: rest) =
      ⟨Stock.setQty st (pyLower (pyStrip s₁)) (a - q),
        cart ++ [((pyLower (pyStrip s₁)), q, pr)], .ok (), rest,
        [toString q ++ "x " ++ (pyLower (pyStrip s₁)) ++ " added to cart!"]⟩ := by
  have hch := choose_exact st s₁ (.txt s₂ :: rest) h0 (by rw [hkey]; rfl)
  have hrpi := rpi_immediate 1 none s₂ rest q hq (not_lt.mpr h1) (by intro M hM; cases hM)
  simp only [add_product, hch, hkey, hrpi]
  rw [if_neg (not_le.mpr ha), if_neg (not_lt.mpr hqa)]
  simp

theorem add_product_reject (st : Stock) (cart : Cart) (s₁ s₂ : String) (rest : List Ev)
    (pr : ℚ) (a q : Int)
    (h0 : ¬((pyLower (pyStrip s₁)) = "0" ∨ (pyLower (pyStrip s₁)) = ""))
    (hkey : Stock.find? st (pyLower (pyStrip s₁)) = some ⟨pr, a⟩)
    (ha : 0 < a) (hq : parseInt (pyStrip s₂) = some q) (h1 : 1 ≤ q) (hqa : a < q) :
    add_product st cart (.txt s₁ :: .txt s₂ :: rest) =
      ⟨st, cart, .ok (), rest, ["Not enough stock. Only " ++ toString a ++ " left."]⟩ := by
  have hch := choose_exact st s₁ (.txt s₂ :: rest) h0 (by rw [hkey]; rfl)
  have hrpi := rpi_immediate 1 none s₂ rest q hq (not_lt.mpr h1) (by intro M hM; cases hM)
  simp only [add_product, hch, hkey, hrpi]
  rw [if_neg (not_le.mpr ha), if_pos hqa]
  simp

theorem add_product_frame (st : Stock) (cart : Cart) (evs : List Ev) :
    ((add_product st cart evs).stock = st ∧ (add_product st cart evs).cart = cart) ∨
    (∃ p q pr a, Stock.find? st p = some ⟨pr, a⟩ ∧ 0 < a ∧ 1 ≤ q ∧ q ≤ a ∧
      (add_product st cart evs).stock = Stock.setQty st p (a - q) ∧
      (add_product st cart evs).cart = cart ++ [(p, q, pr)] ∧
      (add_product st cart evs).res = .ok ()) := by
  rcases hch : choose_product_name st evs with ⟨res, rest, out⟩
  cases res with
  | ok op =>
    cases op with
    | none => left; simp [add_product, hch]
    | some product =>
      cases hf : Stock.find? st product with
      | none => left; simp [add_product, hch, hf]
      | some pd =>
        by_cases hav : pd.quantity ≤ 0
        · left; simp [add_product, hch, hf, if_pos hav]
        · rcases hrpi : read_positive_int 1 none rest with ⟨res2, rest2, out2⟩
          cases res2 with
          | ok quantity =>
            by_cases hlt : pd.quantity < quantity
            · left; simp [add_product, hch, hf, if_neg hav, hrpi, if_pos hlt]
            · right
              have hb := rpi_ok_bounds 1 none rest quantity (by rw [hrpi])
              refine ⟨product, quantity, pd.price, pd.quantity, ?_, not_le.mp hav, hb.1,
                not_lt.mp hlt, ?_, ?_, ?_⟩
              · rw [hf]
              · simp [add_product, hch, hf, if_neg hav, hrpi, if_neg hlt]
              · simp [add_product, hch, hf, if_neg hav, hrpi, if_neg hlt]
              · simp [add_product, hch, hf, if_neg hav, hrpi, if_neg hlt]
          | intr => left; simp [add_product, hch, hf, if_neg hav, hrpi]
          | eof => left; simp [add_product, hch, hf, if_neg hav, hrpi]
          | exn => left; simp [add_product, hch, hf, if_neg hav, hrpi]
  | intr => left; simp [add_product, hch]
  | eof => left; simp [add_product, hch]
  | exn => left; simp [add_product, hch]

theorem add_pricesView (st : Stock) (cart : Cart) (evs : List Ev) :
    pricesView (add_product st cart evs).stock = pricesView st := by
  rcases add_product_frame st cart evs with ⟨h, _⟩ | ⟨p, q, pr, a, _, _, _, _, hst, _, _⟩
  · rw [h]
  · rw [hst, pricesView_setQty]

theorem add_qty_nonneg (st : Stock) (cart : Cart) (evs : List Ev)
    (h : ∀ e ∈ st, 0 ≤ e.2.quantity) :
    ∀ e ∈ (add_product st cart evs).stock, 0 ≤ e.2.quantity := by
  rcases add_product_frame st cart evs with ⟨hst, _⟩ | ⟨p, q, pr, a, hf, ha, h1, hqa, hst, _, _⟩
  · rw [hst]; exact h
  · rw [hst]
    intro e he
    rcases setQty_mem_quantity st p (a - q) e he with ⟨e₀, he₀, hq⟩ | hq
    · rw [hq]; exact h e₀ he₀
    · rw [hq]; omega

theorem add_cart_extends (st : Stock) (cart : Cart) (evs : List Ev) :
    ∃ t, (add_product st cart evs).cart = cart ++ t := by
  rcases add_product_frame st cart evs with ⟨_, hc⟩ | ⟨p, q, pr, a, _, _, _, _, _, hc, _⟩
  · exact ⟨[], by rw [hc]; simp⟩
  · exact ⟨[(p, q, pr)], hc⟩

theorem menu_master :
    ∀ (n : Nat) (evs : List Ev), evs.length ≤ n → ∀ (st : Stock) (cart : Cart),
      pricesView (menu st cart evs).stock = pricesView st ∧
      ((∀ e ∈ st, 0 ≤ e.2.quantity) → ∀ e ∈ (menu st cart evs).stock, 0 ≤ e.2.quantity) ∧
      (∃ t, (menu st cart evs).cart = cart ++ t) ∧
      ((∀ u, Ev.txt u ∈ evs → pyStrip u ≠ "0") → (menu st cart evs).res = .starved) := by
  intro n
  induction n with
  | zero =>
    intro evs hlen st cart
    have hnil : evs = [] := List.length_eq_zero.mp (Nat.le_zero.mp hlen)
    subst hnil
    refine ⟨by rw [menu_nil], by rw [menu_nil]; exact fun h => h, ⟨[], by rw [menu_nil]; simp⟩,
      fun _ => by rw [menu_nil]⟩
  | succ n ih =>
    intro evs hlen st cart
    cases evs with
    | nil =>
      refine ⟨by rw [menu_nil], by rw [menu_nil]; exact fun h => h, ⟨[], by rw [menu_nil]; simp⟩,
        fun _ => by rw [menu_nil]⟩
    | cons e rest =>
      have hr : rest.length ≤ n := by
        simp only [List.length_cons] at hlen
        omega
      cases e with
      | intr =>
        obtain ⟨h1, h2, h3, h4⟩ := ih rest hr st cart
        rw [menu_intr]
        exact ⟨h1, h2, h3, fun hno => h4 (fun u hu => hno u (List.mem_cons_of_mem _ hu))⟩
      | txt s =>
        by_cases hs1 : pyStrip s = "1"
        · obtain ⟨h1, h2, h3, h4⟩ := ih rest hr st cart
          rw [menu_opt1 st cart s rest hs1]
          exact ⟨h1, h2, h3, fun hno => h4 (fun u hu => hno u (List.mem_cons_of_mem _ hu))⟩
        · by_cases hs2 : pyStrip s = "2"
          · have hlen2 : (add_product st cart rest).rest.length ≤ n :=
              le_trans (add_rest_length_le st cart rest) hr
            obtain ⟨h1, h2, h3, h4⟩ :=
              ih (add_product st cart rest).rest hlen2 (add_product st cart rest).stock
                (add_product st cart rest).cart
            rw [menu_opt2 st cart s rest hs2]
            refine ⟨?_, ?_, ?_, ?_⟩
            · rw [h1, add_pricesView]
            · intro hst
              exact h2 (add_qty_nonneg st cart rest hst)
            · obtain ⟨t1, ht1⟩ := add_cart_extends st cart rest
              obtain ⟨t2, ht2⟩ := h3
              exact ⟨t1 ++ t2, by rw [ht2, ht1, List.append_assoc]⟩
            · intro hno
              apply h4
              intro u hu
              obtain ⟨pre, hpre⟩ := add_rest_suffix st cart rest
              apply hno u
              apply List.mem_cons_of_mem
              rw [hpre]
              exact List.mem_append_right pre hu
          · by_cases hs3 : pyStrip s = "3"
            · obtain ⟨h1, h2, h3, h4⟩ := ih rest hr st cart
              rw [menu_opt3 st cart s rest hs3]
              exact ⟨h1, h2, h3, fun hno => h4 (fun u hu => hno u (List.mem_cons_of_mem _ hu))⟩
            · by_cases hs4 : pyStrip s = "4"
              · obtain ⟨h1, h2, h3, h4⟩ := ih rest hr st cart
                rw [menu_opt4 st cart s rest hs4]
                exact ⟨h1, h2, h3, fun hno => h4 (fun u hu => hno u (List.mem_cons_of_mem _ hu))⟩
              · by_cases hs0 : pyStrip s = "0"
                · rw [menu_opt0 st cart s rest hs0]
                  refine ⟨rfl, fun h => h, ⟨[], by simp⟩, ?_⟩
                  intro hno
                  exact absurd hs0 (hno s (List.mem_cons_self _ _))
                · obtain ⟨h1, h2, h3, h4⟩ := ih rest hr st cart
                  rw [menu_invalid st cart s rest hs1 hs2 hs3 hs4 hs0]
                  exact ⟨h1, h2, h3, fun hno => h4 (fun u hu => hno u (List.mem_cons_of_mem _ hu))⟩

/-- Claim C1: for every catalog product with available quantity `a > 0`
and every requested quantity `q` with `1 ≤ q ≤ a` (the name resolving
exactly and the quantity text parsing to `q`), a successful add-to-cart
appends exactly one line `(product, q, unit price snapshotted from the
catalog at that moment)` to the end of the cart and sets the catalog
quantity of that product to `a - q` (the cart append is written before
the stock write in the source; the model commits both in the returned
state); in particular, from the seed catalog, adding 3 rice yields
cart `[(rice, 3, 5.50)]`, catalog rice quantity 7, and checkout total
`16.50`. -/
theorem C1_add_to_cart (st : Stock) (cart : Cart) (s₁ s₂ : String) (rest : List Ev)
    (pr : ℚ) (a q : Int)
    (h0 : ¬(pyLower (pyStrip s₁) = "0" ∨ pyLower (pyStrip s₁) = ""))
    (hkey : Stock.find? st (pyLower (pyStrip s₁)) = some ⟨pr, a⟩)
    (ha : 0 < a) (hq : parseInt (pyStrip s₂) = some q) (h1 : 1 ≤ q) (hqa : q ≤ a) :
    add_product st cart (.txt s₁ :: .txt s₂ :: rest) =
      ⟨Stock.setQty st (pyLower (pyStrip s₁)) (a - q),
        cart ++ [(pyLower (pyStrip s₁), q, pr)], .ok (), rest,
        [toString q ++ "x " ++ pyLower (pyStrip s₁) ++ " added to cart!"]⟩ ∧
    Stock.find? (add_product st cart (.txt s₁ :: .txt s₂ :: rest)).stock (pyLower (pyStrip s₁))
      = some ⟨pr, a - q⟩ ∧
    add_product initStock [] [.txt "rice", .txt "3"] =
      ⟨[("rice", ⟨5.50, 7⟩), ("beans", ⟨7.20, 8⟩), ("pasta", ⟨3.80, 15⟩), ("oil", ⟨6.00, 5⟩)],
        [("rice", 3, 5.50)], .ok (), [], ["3x rice added to cart!"]⟩ ∧
    cart_total (add_product initStock [] [.txt "rice", .txt "3"]).cart = 16.50 := by
  have hmain := add_product_success st cart s₁ s₂ rest pr a q h0 hkey ha hq h1 hqa
  have hsc := add_product_success initStock [] "rice" "3" [] 5.50 10 3 (by decide) rfl
    (by decide) (by decide) (by decide) (by decide)
  refine ⟨hmain, ?_, ?_, ?_⟩
  · rw [hmain]
    exact find?_setQty_self st (pyLower (pyStrip s₁)) ⟨pr, a⟩ (a - q) hkey
  · rw [hsc]
    exact rfl
  · rw [hsc]
    norm_num [cart_total]

theorem C1_add_to_cart_witness :
    add_product initStock [] [.txt "rice", .txt "3"] =
      ⟨[("rice", ⟨5.50, 7⟩), ("beans", ⟨7.20, 8⟩), ("pasta", ⟨3.80, 15⟩), ("oil", ⟨6.00, 5⟩)],
        [("rice", 3, 5.50)], .ok (), [], ["3x rice added to cart!"]⟩ ∧
    Stock.find? (add_product initStock [] [.txt "rice", .txt "3"]).stock "rice" = some ⟨5.50, 7⟩ ∧
    cart_total (add_product initStock [] [.txt "rice", .txt "3"]).cart = 16.50 := by
  have h := C1_add_to_cart initStock [] "rice" "3" [] 5.50 10 3 (by decide) rfl
    (by decide) (by decide) (by decide) (by decide)
  exact ⟨h.2.2.1, h.2.1, h.2.2.2⟩

/-- Claim C2: with the same resolution and parsing hypotheses, if the
requested quantity `q` is at most the available quantity `a` then the
catalog entry is decremented by exactly `q` (strictly decreasing it),
and if `q` exceeds `a` the request is rejected with a message showing
the exact remaining count, and neither the catalog nor the cart is
mutated. -/
theorem C2_decrement (st : Stock) (cart : Cart) (s₁ s₂ : String) (rest : List Ev)
    (pr : ℚ) (a q : Int)
    (h0 : ¬(pyLower (pyStrip s₁) = "0" ∨ pyLower (pyStrip s₁) = ""))
    (hkey : Stock.find? st (pyLower (pyStrip s₁)) = some ⟨pr, a⟩)
    (ha : 0 < a) (hq : parseInt (pyStrip s₂) = some q) (h1 : 1 ≤ q) :
    (q ≤ a →
      Stock.find? (add_product st cart (.txt s₁ :: .txt s₂ :: rest)).stock (pyLower (pyStrip s₁))
        = some ⟨pr, a - q⟩ ∧ a - q < a) ∧
    (a < q →
      add_product st cart (.txt s₁ :: .txt s₂ :: rest) =
        ⟨st, cart, .ok (), rest, ["Not enough stock. Only " ++ toString a ++ " left."]⟩) := by
  constructor
  · intro hqa
    have hmain := add_product_success st cart s₁ s₂ rest pr a q h0 hkey ha hq h1 hqa
    refine ⟨?_, by omega⟩
    rw [hmain]
    exact find?_setQty_self st (pyLower (pyStrip s₁)) ⟨pr, a⟩ (a - q) hkey
  · intro hqa
    exact add_product_reject st cart s₁ s₂ rest pr a q h0 hkey ha hq h1 hqa

theorem C2_decrement_witness :
    (Stock.find? (add_product initStock [] [.txt "rice", .txt "3"]).stock "rice"
        = some ⟨5.50, 7⟩ ∧ (10 : Int) - 3 < 10) ∧
    add_product initStock [] [.txt "rice", .txt "20"] =
      ⟨initStock, [], .ok (), [], ["Not enough stock. Only 10 left."]⟩ := by
  refine ⟨(C2_decrement initStock [] "rice" "3" [] 5.50 10 3 (by decide) rfl (by decide)
      (by decide) (by decide)).1 (by decide),
    (C2_decrement initStock [] "rice" "20" [] 5.50 10 20 (by decide) rfl (by decide)
      (by decide) (by decide)).2 (by decide)⟩

/-- Claim C3: the checkout total is the sum over all cart lines of
(line quantity times the unit price stored in the line when it was
added); `show_total` reads nothing but the cart, and no later menu
operation ever modifies the lines already in the cart (the cart only
ever grows at the end), so the total over those lines is unaffected by
later catalog price or quantity changes; an empty cart displays exactly
the header and the empty-cart message and no total line. -/
theorem C3_checkout_total :
    (∀ cart : Cart, cart_total cart = (cart.map (fun x => (x.2.1 : ℚ) * x.2.2)).sum) ∧
    (∀ (l : CartLine) (ls : List CartLine),
      show_total (l :: ls) =
        "\n=== SHOPPING CART ===" :: ((l :: ls).map cartLineStr ++
          ["\nTotal purchase value: " ++ fmt_money (cart_total (l :: ls))])) ∧
    show_total [] = ["\n=== SHOPPING CART ===", "Your cart is empty."] ∧
    (∀ (st : Stock) (cart : Cart) (evs : List Ev),
      (menu st cart evs).cart.take cart.length = cart) := by
  refine ⟨cart_total_eq_sum, ?_, rfl, ?_⟩
  · intro l ls
    simp [show_total]
  · intro st cart evs
    obtain ⟨-, -, ⟨t, ht⟩, -⟩ := menu_master evs.length evs le_rfl st cart
    rw [ht]
    exact List.take_left cart t

/-- Claim C4: in every state reachable from the seed catalog by any
input-driven sequence of the program's operations, every catalog entry
keeps a non-negative quantity, and the keys and prices are exactly the
seeded ones (prices are never mutated).  Intermediate states are covered
because every intermediate state is the final state of a prefix of the
event list, and `evs` ranges over all event lists. -/
theorem C4_stock_invariant (evs : List Ev) :
    pricesView (menu initStock [] evs).stock = pricesView initStock ∧
    ∀ e ∈ (menu initStock [] evs).stock, 0 ≤ e.2.quantity := by
  obtain ⟨h1, h2, -, -⟩ := menu_master evs.length evs le_rfl initStock []
  refine ⟨h1, h2 ?_⟩
  intro e he
  simp only [initStock, List.mem_cons, List.not_mem_nil, or_false] at he
  rcases he with h | h | h | h <;> subst h <;> decide

/-- Claim C5: the fuzzy product resolver, on one typed attempt: an exact
case-insensitive catalog match is returned immediately with no
suggestion prompt and no further input consumed; blank input or "0"
returns no product (cancellation); input with no catalog key within
similarity cutoff 0.6 resolves to nothing for that attempt (the message
is printed and the loop retries on the remaining input); otherwise at
most 3 closest matches are offered, a validated numeric choice
`1 ≤ c ≤ N` returns the `c`-th offered match, and choice 0 retries the
prompt. -/
theorem C5_fuzzy_resolver (st : Stock) (s : String) (rest : List Ev) :
    ((Stock.find? st (pyLower (pyStrip s))).isSome →
      ¬(pyLower (pyStrip s) = "0" ∨ pyLower (pyStrip s) = "") →
      choose_product_name st (.txt s :: rest) = ⟨.ok (some (pyLower (pyStrip s))), rest, []⟩) ∧
    ((pyLower (pyStrip s) = "0" ∨ pyLower (pyStrip s) = "") →
      choose_product_name st (.txt s :: rest) = ⟨.ok none, rest, []⟩) ∧
    (¬(pyLower (pyStrip s) = "0" ∨ pyLower (pyStrip s) = "") →
      ¬(Stock.find? st (pyLower (pyStrip s))).isSome →
      Difflib.get_close_matches (pyLower (pyStrip s)) (Stock.keys st) 3 ⟨3, 5⟩ = [] →
      choose_product_name st (.txt s :: rest) =
        ⟨(choose_product_name st rest).res, (choose_product_name st rest).rest,
          msgNoSuggest :: (choose_product_name st rest).out⟩) ∧
    (Difflib.get_close_matches (pyLower (pyStrip s)) (Stock.keys st) 3 ⟨3, 5⟩).length ≤ 3 ∧
    (∀ c : Int,
      ¬(pyLower (pyStrip s) = "0" ∨ pyLower (pyStrip s) = "") →
      ¬(Stock.find? st (pyLower (pyStrip s))).isSome →
      Difflib.get_close_matches (pyLower (pyStrip s)) (Stock.keys st) 3 ⟨3, 5⟩ ≠ [] →
      (read_positive_int 0
        (some ((Difflib.get_close_matches (pyLower (pyStrip s)) (Stock.keys st) 3 ⟨3, 5⟩).length : Int))
        rest).res = .ok c →
      ((1 ≤ c → ∃ m,
          (Difflib.get_close_matches (pyLower (pyStrip s)) (Stock.keys st) 3 ⟨3, 5⟩).get?
              (c - 1).toNat = some m ∧
          (choose_product_name st (.txt s :: rest)).res = .ok (some m) ∧
          (choose_product_name st (.txt s :: rest)).rest =
            (read_positive_int 0
              (some ((Difflib.get_close_matches (pyLower (pyStrip s)) (Stock.keys st) 3 ⟨3, 5⟩).length : Int))
              rest).rest) ∧
       (c = 0 →
          choose_product_name st (.txt s :: rest) =
            (let q := read_positive_int 0
              (some ((Difflib.get_close_matches (pyLower (pyStrip s)) (Stock.keys st) 3 ⟨3, 5⟩).length : Int))
              rest
             let r := choose_product_name st q.rest
             ⟨r.res, r.rest,
               suggestLines (Difflib.get_close_matches (pyLower (pyStrip s)) (Stock.keys st) 3 ⟨3, 5⟩) ++
                 q.out ++ r.out⟩)))) := by
  refine ⟨fun hsome h0 => choose_exact st s rest h0 hsome,
    fun h0 => choose_cancel st s rest h0,
    fun h0 hnone hms => choose_nosuggest st s rest h0 hnone hms,
    gcm_length_le (pyLower (pyStrip s)) (Stock.keys st) 3 ⟨3, 5⟩,
    ?_⟩
  intro c h0 hnone hms hok
  constructor
  · intro hc1
    have hb := rpi_ok_bounds 0
      (some ((Difflib.get_close_matches (pyLower (pyStrip s)) (Stock.keys st) 3 ⟨3, 5⟩).length : Int))
      rest c hok
    have hcN : c ≤ (Difflib.get_close_matches (pyLower (pyStrip s)) (Stock.keys st) 3 ⟨3, 5⟩).length :=
      by exact_mod_cast hb.2 _ rfl
    have hlt : (c - 1).toNat <
        (Difflib.get_close_matches (pyLower (pyStrip s)) (Stock.keys st) 3 ⟨3, 5⟩).length := by
      omega
    have hpick := choose_pick st s rest c h0 hnone hms hok (by omega)
    refine ⟨(Difflib.get_close_matches (pyLower (pyStrip s)) (Stock.keys st) 3 ⟨3, 5⟩).get
        ⟨(c - 1).toNat, hlt⟩, List.get?_eq_get hlt, ?_, ?_⟩
    · rw [hpick]
      simp [List.get?_eq_get hlt]
    · rw [hpick]
  · intro hc0
    subst hc0
    exact choose_retry st s rest h0 hnone hms hok

theorem C5_fuzzy_resolver_witness :
    choose_product_name initStock [.txt " Rice "] = ⟨.ok (some "rice"), [], []⟩ ∧
    choose_product_name initStock [.txt "0"] = ⟨.ok none, [], []⟩ ∧
    choose_product_name initStock [.txt "zzzz"] =
      ⟨(choose_product_name initStock []).res, (choose_product_name initStock []).rest,
        msgNoSuggest :: (choose_product_name initStock []).out⟩ ∧
    (∃ m, (Difflib.get_close_matches "bens" (Stock.keys initStock) 3 ⟨3, 5⟩).get? 0 = some m ∧
      (choose_product_name initStock [.txt "bens", .txt "1"]).res = .ok (some m) ∧
      (choose_product_name initStock [.txt "bens", .txt "1"]).rest =
        (read_positive_int 0
          (some ((Difflib.get_close_matches "bens" (Stock.keys initStock) 3 ⟨3, 5⟩).length : Int))
          [.txt "1"]).rest) := by
  refine ⟨(C5_fuzzy_resolver initStock " Rice " []).1 (by decide) (by decide),
    (C5_fuzzy_resolver initStock "0" []).2.1 (by decide),
    (C5_fuzzy_resolver initStock "zzzz" []).2.2.1 (by decide) (by decide) (by decide),
    ?_⟩
  exact ((C5_fuzzy_resolver initStock "bens" [.txt "1"]).2.2.2.2 1 (by decide) (by decide)
    (by decide) (by decide)).1 (by decide)

/-- Claim C6: the quantity validator only ever returns an integer `v`
with `minimum ≤ v` and, when a maximum is supplied, `v ≤ maximum`; on
non-integer input, input below the minimum, and input above the maximum
it prints a message and retries on the remaining input, with the three
messages pairwise distinct; a keyboard interrupt during the prompt is
re-raised to the caller (result `.intr`), not swallowed. -/
theorem C6_quantity_validator (minimum : Int) (maximum : Option Int) :
    (∀ (evs : List Ev) (v : Int), (read_positive_int minimum maximum evs).res = .ok v →
      minimum ≤ v ∧ ∀ M, maximum = some M → v ≤ M) ∧
    (∀ (s : String) (rest : List Ev), parseInt (pyStrip s) = none →
      read_positive_int minimum maximum (.txt s :: rest) =
        ⟨(read_positive_int minimum maximum rest).res,
          (read_positive_int minimum maximum rest).rest,
          msgInvalidInt :: (read_positive_int minimum maximum rest).out⟩) ∧
    (∀ (s : String) (rest : List Ev) (v : Int), parseInt (pyStrip s) = some v → v < minimum →
      read_positive_int minimum maximum (.txt s :: rest) =
        ⟨(read_positive_int minimum maximum rest).res,
          (read_positive_int minimum maximum rest).rest,
          msgMin minimum :: (read_positive_int minimum maximum rest).out⟩) ∧
    (∀ (s : String) (rest : List Ev) (v M : Int), maximum = some M →
      parseInt (pyStrip s) = some v → ¬v < minimum → M < v →
      read_positive_int minimum maximum (.txt s :: rest) =
        ⟨(read_positive_int minimum maximum rest).res,
          (read_positive_int minimum maximum rest).rest,
          msgMax M :: (read_positive_int minimum maximum rest).out⟩) ∧
    (msgInvalidInt ≠ msgMin minimum ∧ (∀ M, msgInvalidInt ≠ msgMax M) ∧
      (∀ M, msgMin minimum ≠ msgMax M)) ∧
    (∀ rest : List Ev, read_positive_int minimum maximum (.intr :: rest) =
      ⟨.intr, rest, [msgCancelOp]⟩) := by
  refine ⟨fun evs v h => rpi_ok_bounds minimum maximum evs v h, ?_, ?_, ?_,
    ⟨msgInvalidInt_ne_msgMin minimum, fun M => msgInvalidInt_ne_msgMax M,
      fun M => msgMin_ne_msgMax minimum M⟩,
    fun rest => rfl⟩
  · intro s rest hp
    simp [read_positive_int, hp]
  · intro s rest v hp hv
    simp [read_positive_int, hp, hv]
  · intro s rest v M hM hp hv hx
    subst hM
    simp [read_positive_int, hp, hv, hx]

theorem C6_quantity_validator_witness :
    ((1 : Int) ≤ 3 ∧ ∀ M : Int, (some 5 : Option Int) = some M → 3 ≤ M) ∧
    read_positive_int 1 (some 5) [.txt "abc", .txt "3"] =
      ⟨(read_positive_int 1 (some 5) [.txt "3"]).res,
        (read_positive_int 1 (some 5) [.txt "3"]).rest,
        msgInvalidInt :: (read_positive_int 1 (some 5) [.txt "3"]).out⟩ ∧
    read_positive_int 1 (some 5) [.txt "0", .txt "3"] =
      ⟨(read_positive_int 1 (some 5) [.txt "3"]).res,
        (read_positive_int 1 (some 5) [.txt "3"]).rest,
        msgMin 1 :: (read_positive_int 1 (some 5) [.txt "3"]).out⟩ ∧
    read_positive_int 1 (some 5) [.txt "9", .txt "3"] =
      ⟨(read_positive_int 1 (some 5) [.txt "3"]).res,
        (read_positive_int 1 (some 5) [.txt "3"]).rest,
        msgMax 5 :: (read_positive_int 1 (some 5) [.txt "3"]).out⟩ ∧
    read_positive_int 1 (some 5) [.intr] = ⟨.intr, [], [msgCancelOp]⟩ := by
  refine ⟨(C6_quantity_validator 1 (some 5)).1 [.txt "3"] 3 (by decide),
    (C6_quantity_validator 1 (some 5)).2.1 "abc" [.txt "3"] (by decide),
    (C6_quantity_validator 1 (some 5)).2.2.1 "0" [.txt "3"] 0 (by decide) (by decide),
    (C6_quantity_validator 1 (some 5)).2.2.2.1 "9" [.txt "3"] 9 5 rfl (by decide) (by decide)
      (by decide),
    (C6_quantity_validator 1 (some 5)).2.2.2.2.2 []⟩

/-- Claim C7: the menu loop as a two-state machine.  Options "1"–"4"
dispatch to their handler and return to the Running state (the loop
continues on the remaining events); option "0" moves to Exiting, and a
run whose events never include a "0" option never reports `exited` (so
option 0 is the only way the loop's `break` executes); any other input
prints an error and stays Running; an interrupt at the prompt prints a
hint and stays Running; a handler exception (here the EOFError of
exhausted input, or a KeyError) is caught, reported via `menuHandle`,
and the loop continues — the modelled loop is a total function and
never crashes. -/
theorem C7_menu_state_machine (st : Stock) (cart : Cart) (s : String) (evs : List Ev) :
    (pyStrip s = "1" → menu st cart (.txt s :: evs) =
      (let r := menu st cart evs
       ⟨r.stock, r.cart, r.rest, r.res, menuLines ++ show_stock st ++ r.out⟩)) ∧
    (pyStrip s = "2" → menu st cart (.txt s :: evs) =
      (let a := add_product st cart evs
       let r := menu a.stock a.cart a.rest
       ⟨r.stock, r.cart, r.rest, r.res, menuLines ++ a.out ++ menuHandle a.res ++ r.out⟩)) ∧
    (pyStrip s = "3" → menu st cart (.txt s :: evs) =
      (let r := menu st cart evs
       ⟨r.stock, r.cart, r.rest, r.res, menuLines ++ show_total cart ++ r.out⟩)) ∧
    (pyStrip s = "4" → menu st cart (.txt s :: evs) =
      (let r := menu st cart evs
       ⟨r.stock, r.cart, r.rest, r.res, menuLines ++ show_stock st ++ r.out⟩)) ∧
    (pyStrip s = "0" → menu st cart (.txt s :: evs) =
      ⟨st, cart, evs, .exited, menuLines ++ [msgExit]⟩) ∧
    (pyStrip s ≠ "1" → pyStrip s ≠ "2" → pyStrip s ≠ "3" → pyStrip s ≠ "4" →
      pyStrip s ≠ "0" → menu st cart (.txt s :: evs) =
      (let r := menu st cart evs
       ⟨r.stock, r.cart, r.rest, r.res, menuLines ++ [msgInvalidOpt] ++ r.out⟩)) ∧
    (menu st cart (.intr :: evs) =
      (let r := menu st cart evs
       ⟨r.stock, r.cart, r.rest, r.res, menuLines ++ [msgHint] ++ r.out⟩)) ∧
    ((∀ u, Ev.txt u ∈ evs → pyStrip u ≠ "0") → (menu st cart evs).res = .starved) := by
  refine ⟨fun h => menu_opt1 st cart s evs h,
    fun h => menu_opt2 st cart s evs h,
    fun h => menu_opt3 st cart s evs h,
    fun h => menu_opt4 st cart s evs h,
    fun h => menu_opt0 st cart s evs h,
    fun h1 h2 h3 h4 h0 => menu_invalid st cart s evs h1 h2 h3 h4 h0,
    menu_intr st cart evs,
    fun hno => (menu_master evs.length evs le_rfl st cart).2.2.2 hno⟩

theorem C7_menu_state_machine_witness :
    menu initStock [] [.txt "1"] =
      (let r := menu initStock [] []
       ⟨r.stock, r.cart, r.rest, r.res, menuLines ++ show_stock initStock ++ r.out⟩) ∧
    menu initStock [] [.txt "2"] =
      (let a := add_product initStock [] []
       let r := menu a.stock a.cart a.rest
       ⟨r.stock, r.cart, r.rest, r.res, menuLines ++ a.out ++ menuHandle a.res ++ r.out⟩) ∧
    menu initStock [] [.txt "3"] =
      (let r := menu initStock [] []
       ⟨r.stock, r.cart, r.rest, r.res, menuLines ++ show_total [] ++ r.out⟩) ∧
    menu initStock [] [.txt "0"] =
      ⟨initStock, [], [], .exited, menuLines ++ [msgExit]⟩ ∧
    menu initStock [] [.txt "9"] =
      (let r := menu initStock [] []
       ⟨r.stock, r.cart, r.rest, r.res, menuLines ++ [msgInvalidOpt] ++ r.out⟩) ∧
    (menu initStock [] [.txt "1", .intr]).res = .starved := by
  refine ⟨(C7_menu_state_machine initStock [] "1" []).1 (by decide),
    (C7_menu_state_machine initStock [] "2" []).2.1 (by decide),
    (C7_menu_state_machine initStock [] "3" []).2.2.1 (by decide),
    (C7_menu_state_machine initStock [] "0" []).2.2.2.2.1 (by decide),
    (C7_menu_state_machine initStock [] "9" []).2.2.2.2.2.1 (by decide) (by decide) (by decide)
      (by decide) (by decide),
    (C7_menu_state_machine initStock [] "x" [.txt "1", .intr]).2.2.2.2.2.2.2 ?_⟩
  intro u hu
  simp only [List.mem_cons, List.not_mem_nil, or_false] at hu
  rcases hu with h | h
  · cases h
    decide
  · cases h

/-- Claim C8: whenever the add-to-cart operation is cancelled — an
interrupt at the product prompt, the resolver returning no product
(blank, "0", or an interrupt during resolution), or an interrupt at the
quantity prompt — it leaves both catalog and cart exactly as they were;
and in full generality every run of `add_product` either changes
nothing at all or commits exactly the one completed line together with
its stock decrement, so no partial state is ever committed. -/
theorem C8_cancellation_no_mutation (st : Stock) (cart : Cart) :
    (∀ rest : List Ev, (add_product st cart (.intr :: rest)).stock = st ∧
      (add_product st cart (.intr :: rest)).cart = cart) ∧
    (∀ evs : List Ev, (choose_product_name st evs).res = .ok none →
      (add_product st cart evs).stock = st ∧ (add_product st cart evs).cart = cart) ∧
    (∀ (evs : List Ev) (p : String), (choose_product_name st evs).res = .ok (some p) →
      (read_positive_int 1 none (choose_product_name st evs).rest).res = .intr →
      (add_product st cart evs).stock = st ∧ (add_product st cart evs).cart = cart) ∧
    (∀ evs : List Ev,
      ((add_product st cart evs).stock = st ∧ (add_product st cart evs).cart = cart) ∨
      ((add_product st cart evs).res = .ok () ∧ ∃ p q pr a,
        Stock.find? st p = some ⟨pr, a⟩ ∧ 0 < a ∧ 1 ≤ q ∧ q ≤ a ∧
        (add_product st cart evs).stock = Stock.setQty st p (a - q) ∧
        (add_product st cart evs).cart = cart ++ [(p, q, pr)])) := by
  refine ⟨?_, ?_, ?_, ?_⟩
  · intro rest
    simp [add_product, choose_intr]
  · intro evs hnone
    rcases hch : choose_product_name st evs with ⟨res, rest, out⟩
    rw [hch] at hnone
    simp only at hnone
    subst hnone
    simp [add_product, hch]
  · intro evs p hsome hintr
    rcases hch : choose_product_name st evs with ⟨res, rest, out⟩
    rw [hch] at hsome hintr
    simp only at hsome hintr
    subst hsome
    cases hf : Stock.find? st p with
    | none => simp [add_product, hch, hf]
    | some pd =>
      by_cases hav : pd.quantity ≤ 0
      · simp [add_product, hch, hf, if_pos hav]
      · rcases hrpi : read_positive_int 1 none rest with ⟨res2, rest2, out2⟩
        rw [hrpi] at hintr
        simp only at hintr
        subst hintr
        simp [add_product, hch, hf, if_neg hav, hrpi]
  · intro evs
    rcases add_product_frame st cart evs with h | ⟨p, q, pr, a, hf, ha, h1, hqa, hst, hc, hres⟩
    · exact Or.inl h
    · exact Or.inr ⟨hres, p, q, pr, a, hf, ha, h1, hqa, hst, hc⟩

theorem C8_cancellation_no_mutation_witness :
    ((add_product initStock [("oil", 1, 6.00)] [.intr]).stock = initStock ∧
      (add_product initStock [("oil", 1, 6.00)] [.intr]).cart = [("oil", 1, 6.00)]) ∧
    ((add_product initStock [] [.txt "0"]).stock = initStock ∧
      (add_product initStock [] [.txt "0"]).cart = []) ∧
    ((add_product initStock [] [.txt "rice", .intr]).stock = initStock ∧
      (add_product initStock [] [.txt "rice", .intr]).cart = []) := by
  refine ⟨(C8_cancellation_no_mutation initStock [("oil", 1, 6.00)]).1 [],
    (C8_cancellation_no_mutation initStock []).2.1 [.txt "0"] ?_,
    (C8_cancellation_no_mutation initStock []).2.2.1 [.txt "rice", .intr] "rice" ?_ ?_⟩
  · simp [choose_cancel initStock "0" [] (by decide)]
  · simp only [choose_exact initStock "rice" [.intr] (by decide) (by decide)]
    decide
  · simp [choose_exact initStock "rice" [.intr] (by decide) (by decide), read_positive_int]

/-- Claim C9: the checkout (show total) and show-stock operations modify
neither the catalog nor the cart: dispatching option "3" (and "1", "4")
continues the loop on the same state, only printing; in particular the
cart is not cleared by checkout, and two consecutive checkouts display
exactly the same cart lines and total. -/
theorem C9_checkout_frame (st : Stock) (cart : Cart) (evs : List Ev) :
    menu st cart (.txt "3" :: evs) =
      (let r := menu st cart evs
       ⟨r.stock, r.cart, r.rest, r.res, menuLines ++ show_total cart ++ r.out⟩) ∧
    menu st cart (.txt "1" :: evs) =
      (let r := menu st cart evs
       ⟨r.stock, r.cart, r.rest, r.res, menuLines ++ show_stock st ++ r.out⟩) ∧
    menu st cart (.txt "4" :: evs) =
      (let r := menu st cart evs
       ⟨r.stock, r.cart, r.rest, r.res, menuLines ++ show_stock st ++ r.out⟩) ∧
    (menu st cart (.txt "3" :: .txt "3" :: evs)).out =
      menuLines ++ show_total cart ++
        (menuLines ++ show_total cart ++ (menu st cart evs).out) := by
  refine ⟨menu_opt3 st cart "3" evs (by decide), menu_opt1 st cart "1" evs (by decide),
    menu_opt4 st cart "4" evs (by decide), ?_⟩
  rw [menu_opt3 st cart "3" (.txt "3" :: evs) (by decide),
    menu_opt3 st cart "3" evs (by decide)]

/-- Claim C10: menu option "4" (show final stock) invokes exactly the
same operation as option "1" (show stock): on every state and input
continuation the two dispatches produce literally the same result, the
state is unchanged, and the printed lines are the banner followed by the
stock listing. -/
theorem C10_opt4_is_opt1 (st : Stock) (cart : Cart) (evs : List Ev) :
    menu st cart (.txt "4" :: evs) = menu st cart (.txt "1" :: evs) ∧
    (menu st cart (.txt "4" :: evs)).stock = (menu st cart evs).stock ∧
    (menu st cart (.txt "4" :: evs)).cart = (menu st cart evs).cart ∧
    (menu st cart (.txt "4" :: evs)).out =
      menuLines ++ show_stock st ++ (menu st cart evs).out := by
  refine ⟨?_, ?_, ?_, ?_⟩
  · rw [menu_opt4 st cart "4" evs (by decide), menu_opt1 st cart "1" evs (by decide)]
  · rw [menu_opt4 st cart "4" evs (by decide)]
  · rw [menu_opt4 st cart "4" evs (by decide)]
  · rw [menu_opt4 st cart "4" evs (by decide)]
